import Mathlib

/-!
Shallow embedding of the onchain-agent-template repository (src/tools.rs and
src/anthropic.rs) and proofs about it.

Modelling conventions:
* All network and system effects (Ethereum JSON-RPC, randomness, the model API,
  wall-clock time, environment variables) are gathered in an explicit `Env`
  record of oracles; the order in which the Rust code consults them is kept.
* The in-memory wallet registry (a process-global `Mutex<HashMap<String,String>>`
  in the source) is explicit state, passed in and returned where the code
  mutates it.  An association list with shadowing on the left models
  `HashMap::insert` / `get`.
* Rust `f64` amounts are modelled as exact rationals: the only float facts the
  claims depend on are sign and exact small-decimal parses, on which the
  rational model agrees with IEEE semantics.  Display of floats is modelled by
  a simple decimal rendering; no theorem depends on the rendered text.
* Fallible Rust functions returning `anyhow::Result<String>` are modelled as
  `RustOutcome String`, whose third alternative `panic` represents an
  unwinding panic: `env::var("SEPOLIA_RPC_URL").expect(..)` on an unset
  variable (read lazily on every use, as the code does) and `U256::as_u128`
  on values not fitting 128 bits.  No caller catches a panic, so it
  propagates through every layer.  Leaf oracles that the code consumes as
  plain `Result`s stay `Except`.
-/

namespace OnchainAgent

/-- Substring test on character lists: does `pat` occur contiguously in the list?
Models Rust `str::contains` with a string pattern. -/
def containsSubL (pat : List Char) : List Char → Bool
  | [] => pat.isEmpty
  | c :: rest => pat.isPrefixOf (c :: rest) || containsSubL pat rest

/-- Models Rust `str::contains("…")`. -/
def containsSubstr (s pat : String) : Bool :=
  containsSubL pat.data s.data

/-- Models Rust `str::to_lowercase()` character-wise (the inputs compared
against are ASCII, where the two agree). -/
def strToLower (s : String) : String :=
  String.mk (s.data.map Char.toLower)

/-- Hex digit test, as used by the regex character class `[a-fA-F0-9]` and by
`hex::decode`. -/
def isHexDigit (c : Char) : Bool :=
  c.isDigit || ('a' ≤ c && c ≤ 'f') || ('A' ≤ c && c ≤ 'F')

/-- Numeric value of one hex digit (`hex::decode`), over the code point:
48-57 are `0`-`9`, 97-102 are `a`-`f`, 65-70 are `A`-`F`. -/
def hexDigitVal (c : Char) : Option Nat :=
  if 48 ≤ c.toNat ∧ c.toNat ≤ 57 then some (c.toNat - 48)
  else if 97 ≤ c.toNat ∧ c.toNat ≤ 102 then some (c.toNat - 87)
  else if 65 ≤ c.toNat ∧ c.toNat ≤ 70 then some (c.toNat - 55)
  else none

/-- Lowercase hex digit for a value < 16 (`hex::encode` output alphabet). -/
def hexDigitChar (n : Nat) : Char :=
  if n < 10 then Char.ofNat ('0'.toNat + n) else Char.ofNat ('a'.toNat + (n - 10))

/-- Models Rust `hex::encode`: two lowercase hex digits per byte. -/
def hexEncode (bs : List Nat) : String :=
  String.mk (bs.flatMap (fun b => [hexDigitChar (b / 16), hexDigitChar (b % 16)]))

/-- Models Rust `hex::decode` on character lists: pairs of hex digits; an odd
length or a non-hex character fails. -/
def hexDecodeL : List Char → Option (List Nat)
  | [] => some []
  | [_] => none
  | c1 :: c2 :: rest =>
    match hexDigitVal c1, hexDigitVal c2 with
    | some v1, some v2 => (hexDecodeL rest).map (fun bs => (16 * v1 + v2) :: bs)
    | _, _ => none

/-- Models Rust `hex::decode` on strings. -/
def hexDecode (s : String) : Option (List Nat) :=
  hexDecodeL s.data

/-- Digits-to-Nat accumulator. -/
def natOfDigits (cs : List Char) : Nat :=
  cs.foldl (fun a c => 10 * a + (c.toNat - '0'.toNat)) 0

/-- Models Rust `str::parse::<f64>()` restricted to finite plain decimal
literals: optional sign, then digits with at most one decimal point and at
least one digit.  Exponent, infinity and NaN forms are outside the model.
Values are exact rationals; on every input used by the claims the rational
value agrees in sign and (for exactly representable inputs) in value with the
IEEE `f64` the Rust code computes. -/
def parseF64 (s : String) : Option ℚ :=
  match s.data with
  | [] => none
  | cs =>
    let signed : ℚ × List Char :=
      match cs with
      | '-' :: rest => (-1, rest)
      | '+' :: rest => (1, rest)
      | _ => (1, cs)
    let ip := signed.2.takeWhile Char.isDigit
    match signed.2.dropWhile Char.isDigit with
    | [] => if ip.isEmpty then none else some (signed.1 * (natOfDigits ip : ℚ))
    | '.' :: frac =>
      if frac.all Char.isDigit && !(ip.isEmpty && frac.isEmpty) then
        some (signed.1 * ((natOfDigits ip : ℚ) + (natOfDigits frac : ℚ) / (10 : ℚ) ^ frac.length))
      else none
    | _ => none

/-- Models the Rust numeric cast `x as u128` applied to an `f64`: saturating,
truncating toward zero; negative values (and negative zero) go to `0`. -/
def rustCastToU128 (q : ℚ) : Nat :=
  if q < 0 then 0 else min ⌊q⌋.toNat (2 ^ 128 - 1)

/-- Models `ethers::types::Address::from_str` (fixed-hash `H160`): an optional
`0x` prefix followed by exactly 40 hex digits.  The returned value is the
canonical form produced by the `{:?}` Debug formatting the code uses
everywhere for addresses: `0x` plus 40 lowercase hex digits. -/
def parseAddress (s : String) : Option String :=
  let body :=
    match s.data with
    | '0' :: 'x' :: rest => rest
    | cs => cs
  if body.length = 40 && body.all isHexDigit then
    some (String.mk ('0' :: 'x' :: body.map Char.toLower))
  else none

/-- Left-pad a number to six digits (helper for the `{:.6}` rendering). -/
def padSixDigits (n : Nat) : String :=
  let s := toString n
  String.mk (List.replicate (6 - s.length) '0') ++ s

/-- Models the Rust `{:.6}` fixed-point display of a nonnegative float.
(The rounding mode is approximated by truncation; no claim inspects this
rendering.) -/
def fmtFixed6 (q : ℚ) : String :=
  let u := (q * 1000000).floor.toNat
  toString (u / 1000000) ++ "." ++ padSixDigits (u % 1000000)

/-- Models the Rust `{}` display of the `f64` amount inside result messages.
(Rust shows the shortest float representation; no claim inspects this
rendering.) -/
def showAmount (q : ℚ) : String := toString q

/-- Minimal model of `serde_json::Value` as the tools consume it.  The code
only ever distinguishes strings (via `as_str`) and objects (via `get`), so
the remaining JSON variants (null, booleans, numbers, arrays) — which satisfy
neither test — are collapsed into the single constructor `scalar`. -/
inductive Json where
  | str (s : String)
  | obj (fields : List (String × Json))
  | scalar

/-- Field lookup in a JSON object (`serde_json` maps have unique keys; the
first match suffices). -/
def lookupField : List (String × Json) → String → Option Json
  | [], _ => none
  | (k, v) :: rest, key => if k = key then some v else lookupField rest key

/-- Models `serde_json::Value::get(key)`: only objects have fields. -/
def jsonGet : Json → String → Option Json
  | Json.obj fields, key => lookupField fields key
  | _, _ => none

/-- Models `serde_json::Value::as_str()`. -/
def jsonAsStr : Json → Option String
  | Json.str s => some s
  | _ => none

/-- Models the ubiquitous `args.get(key).and_then(|v| v.as_str())`. -/
def getStr (args : Json) (key : String) : Option String :=
  (jsonGet args key).bind jsonAsStr

/-- `Tool` struct from src/tools.rs. -/
structure Tool where
  name : String
  description : String
deriving DecidableEq

/-- `get_available_tools` from src/tools.rs. -/
def get_available_tools : List Tool :=
  [ { name := "get_weather",
      description := "Get the current weather for a given city" },
    { name := "get_time",
      description := "Get the current time in a specific timezone or local time" },
    { name := "eth_wallet",
      description := "Ethereum wallet operations: generate new wallet, check balance, or send ETH" } ]

/-- The in-memory wallet registry `WALLETS: Mutex<HashMap<String, String>>`,
modelled as an association list from Debug-formatted address to private-key
hex.  Entries added later are put in front and shadow older ones, matching
`HashMap::insert` replacement semantics under the lookup below. -/
abbrev Wallets : Type := List (String × String)

/-- Models `WALLETS.get(&key)`. -/
def lookupW : Wallets → String → Option String
  | [], _ => none
  | (k, v) :: rest, key => if k = key then some v else lookupW rest key

/-- Models `WALLETS.insert(key, value)`. -/
def insertW (w : Wallets) (k v : String) : Wallets :=
  (k, v) :: w

/-! ### The four regexes of `parse_and_execute_eth_send_command`

The patterns are fixed, so each is embedded as a direct scanner with the
regex crate's leftmost-first semantics: `findMatch` tries every starting
position from the left and returns the first successful match's capture
group.  Greedy quantifiers are safe to take maximally here: giving back
characters from `\d+`/`\d*` leaves a digit in front of ` ?ETH`, which can
never match, and does not change the extent of capture group 1. -/

/-- The literal `ETH` at the current position. -/
def matchETHAt : List Char → Bool
  | 'E' :: 'T' :: 'H' :: _ => true
  | _ => false

/-- The regex fragment ` ?ETH` at the current position: one optional space,
then the literal.  (If the head is a space, the zero-space alternative would
need `E` at the space, so only the consumed-space branch can succeed.) -/
def matchSpaceETH : List Char → Bool
  | ' ' :: rest => matchETHAt rest
  | cs => matchETHAt cs

/-- The regex `(\d+\.?\d*) ?ETH` anchored at the current position; returns the
capture group.  When the optional dot is taken but ` ?ETH` then fails, the
zero-dot alternative also fails (the next char is the dot), so no further
backtracking is needed. -/
def matchAmountAt (cs : List Char) : Option (List Char) :=
  if (cs.takeWhile Char.isDigit).isEmpty then none
  else
    match cs.dropWhile Char.isDigit with
    | '.' :: rest2 =>
      if matchSpaceETH (rest2.dropWhile Char.isDigit) then
        some (cs.takeWhile Char.isDigit ++ '.' :: rest2.takeWhile Char.isDigit)
      else none
    | rest1 => if matchSpaceETH rest1 then some (cs.takeWhile Char.isDigit) else none

/-- Match a literal character sequence at the current position, returning the
remainder. -/
def matchLit : List Char → List Char → Option (List Char)
  | [], cs => some cs
  | _ :: _, [] => none
  | l :: ls, c :: cs => if c = l then matchLit ls cs else none

/-- The regex fragment `[a-fA-F0-9]{n}` anchored at the current position. -/
def takeHex : Nat → List Char → Option (List Char)
  | 0, _ => some []
  | _ + 1, [] => none
  | n + 1, c :: rest =>
    if isHexDigit c then (takeHex n rest).map (fun h => c :: h) else none

/-- The regex `from (0x[a-fA-F0-9]{40})` anchored at the current position;
returns the capture group. -/
def matchFromAt (cs : List Char) : Option (List Char) :=
  match matchLit "from 0x".data cs with
  | none => none
  | some rest => (takeHex 40 rest).map (fun h => '0' :: 'x' :: h)

/-- The regex `to (0x[a-fA-F0-9]{40})` anchored at the current position;
returns the capture group. -/
def matchToAt (cs : List Char) : Option (List Char) :=
  match matchLit "to 0x".data cs with
  | none => none
  | some rest => (takeHex 40 rest).map (fun h => '0' :: 'x' :: h)

/-- The regex `private key ([a-fA-F0-9]{64})` anchored at the current
position; returns the capture group. -/
def matchKeyAt (cs : List Char) : Option (List Char) :=
  match matchLit "private key ".data cs with
  | none => none
  | some rest => takeHex 64 rest

/-- Leftmost-first regex search: the first starting position (scanning left to
right) at which the anchored matcher succeeds wins. -/
def findMatch (m : List Char → Option (List Char)) : List Char → Option (List Char)
  | [] => none
  | c :: rest =>
    match m (c :: rest) with
    | some g => some g
    | none => findMatch m rest

/-- Shape of the capture group of `(\d+\.?\d*)`: one or more digits, then
optionally a dot and zero or more digits. -/
def isAmountToken (cs : List Char) : Bool :=
  !(cs.takeWhile Char.isDigit).isEmpty &&
    (match cs.dropWhile Char.isDigit with
     | [] => true
     | '.' :: rest => rest.all Char.isDigit
     | _ => false)

/-- Shape of a `0x`-prefixed 40-hex-digit address token. -/
def isAddrToken (cs : List Char) : Bool :=
  match cs with
  | '0' :: 'x' :: h => h.length = 40 && h.all isHexDigit
  | _ => false

/-- The legacy transaction the send path builds:
`TransactionRequest::new().to(to).value(wei).from(from)`. -/
structure TxRequest where
  txTo : String
  txValue : Nat
  txFrom : String
deriving DecidableEq

/-- Outcome of `pending_tx.confirmations(1)` under the 60-second
`tokio::time::timeout`, as distinguished by the code. -/
inductive ConfirmResult where
  | confirmed (gasUsed blockNumber : Option Nat)
  | noReceipt
  | minedFailed (err : String)
  | timeout
deriving DecidableEq

/-- Outcome of a Rust call that may also abort the process.  `ok`/`err`
mirror `anyhow::Result`; `panic` models an unwinding panic — here
`env::var(..).expect(..)` on an unset variable and `U256::as_u128` on a value
not fitting 128 bits — which no caller in this code catches, so it
propagates through every `match` on a `Result`.  (The exact panic message
texts are stand-ins; no claim inspects them.) -/
inductive RustOutcome (α : Type) where
  | ok (a : α)
  | err (e : String)
  | panic (msg : String)
deriving DecidableEq

/-- All external effects of the program, as oracles.  Fields appear in the
order the code consults them.  `ethRpcUrl` and `sepoliaRpcUrl` model
`env::var("ETH_RPC_URL")` / `env::var("SEPOLIA_RPC_URL")` (`none` = unset,
re-read on every use, as the code does).  `providerFor` models
`Provider::<Http>::try_from(url)`.  `deriveAddress` models
`LocalWallet::from_bytes(..)` followed by `.address()` and `{:?}` Debug
formatting: `none` when wallet creation fails, otherwise the canonical
`0x`-lowercase-hex address string. -/
structure Env where
  anthropicApiKey : Option String
  nowFormatted : String
  ethRpcUrl : Option String
  sepoliaRpcUrl : Option String
  providerFor : String → Except String Unit
  randomBytes : List Nat
  deriveAddress : List Nat → Option String
  getBalance : String → Except String Nat
  mockR1 : Nat
  mockR2 : Nat
  gasPrice : Except String Nat
  estimateGas : TxRequest → Except String Nat
  sendTx : TxRequest → Except String String
  confirm : TxRequest → ConfirmResult

/-- The panic of `get_sepolia_rpc_url` (src/tools.rs lines 152-155):
`env::var("SEPOLIA_RPC_URL").expect("SEPOLIA_RPC_URL must be set")`. -/
def sepoliaPanicMsg : String := "SEPOLIA_RPC_URL must be set"

/-- The panic of `U256::as_u128` on a value with more than 128 bits
(src/tools.rs lines 213, 371, 404). -/
def u128OverflowMsg : String := "Integer overflow when casting to u128"

/-- `get_provider` from src/tools.rs lines 158-165: use `ETH_RPC_URL` when
set, otherwise `get_sepolia_rpc_url()` — which panics when
`SEPOLIA_RPC_URL` is unset — then `Provider::try_from` (fallible via `?`). -/
def get_provider (env : Env) : RustOutcome Unit :=
  match env.ethRpcUrl with
  | some url =>
    match env.providerFor url with
    | .error e => .err e
    | .ok _ => .ok ()
  | none =>
    match env.sepoliaRpcUrl with
    | none => .panic sepoliaPanicMsg
    | some url =>
      match env.providerFor url with
      | .error e => .err e
      | .ok _ => .ok ()

/-- `get_weather` from src/tools.rs (pure mock data). -/
def get_weather (city : String) : RustOutcome String :=
  let c := strToLower city
  if c = "cairo" then .ok "30°C, sunny"
  else if c = "london" then .ok "15°C, cloudy with occasional rain"
  else if c = "new york" then .ok "22°C, partly cloudy"
  else if c = "tokyo" then .ok "25°C, clear skies"
  else .ok ("Weather data for " ++ city ++ " is not available. This is a mock implementation.")

/-- `get_time` from src/tools.rs; `Local::now()` formatting is the oracle
`Env.nowFormatted`. -/
def get_time (env : Env) (timezone : Option String) : RustOutcome String :=
  match timezone with
  | some tz =>
    .ok ("Current time (local, timezone " ++ tz ++ " not implemented): " ++ env.nowFormatted)
  | none => .ok ("Current local time: " ++ env.nowFormatted)

/-- `eth_generate_wallet` from src/tools.rs: 32 random bytes (the oracle
`Env.randomBytes`), hex-encode them, derive the wallet; on success store the
(Debug-formatted address → private-key hex) pair in the registry and return
both in plaintext. -/
def eth_generate_wallet (env : Env) (w : Wallets) : RustOutcome String × Wallets :=
  let private_key := hexEncode env.randomBytes
  match env.deriveAddress env.randomBytes with
  | none => (.ok "Failed to generate wallet", w)
  | some address =>
    (.ok ("Generated new Ethereum wallet:\nAddress: " ++ address ++ "\nPrivate Key: " ++ private_key),
     insertW w address private_key)

/-- `eth_check_balance` from src/tools.rs: validate the address, construct the
provider, query the balance; on a query error fall back to a mock balance
built from two random numbers.  The success branch casts the `U256` balance
with `as_u128` (panic when ≥ 2^128, line 213) and then calls
`get_sepolia_rpc_url()` inside the format string (panic when the variable is
unset, line 215). -/
def eth_check_balance (env : Env) (address : String) : RustOutcome String :=
  if address = "" then .ok "Error: Address is required"
  else
    match parseAddress address with
    | none => .ok ("Error: Invalid Ethereum address format: " ++ address)
    | some addr =>
      match get_provider env with
      | .panic m => .panic m
      | .err e => .ok ("Error connecting to Ethereum node: " ++ e)
      | .ok _ =>
        match env.getBalance addr with
        | .ok balance =>
          if balance < 2 ^ 128 then
            match env.sepoliaRpcUrl with
            | none => .panic sepoliaPanicMsg
            | some url =>
              .ok ("Balance for address " ++ addr ++ ": "
                ++ fmtFixed6 ((balance : ℚ) / 1000000000000000000) ++ " ETH (via "
                ++ url ++ ")")
          else .panic u128OverflowMsg
        | .error _ =>
          .ok ("Balance for address " ++ addr ++ ": " ++ toString env.mockR1 ++ "."
            ++ toString env.mockR2 ++ " ETH (mock)")

/-- Lines 328-415 of src/tools.rs: query the gas price, build the legacy
transaction, estimate gas, submit, and classify the confirmation outcome.
`wei` is the already-converted value the transaction carries.  The
`confirmed` and `timeout` result strings evaluate `gas_price.as_u128()`
(panic when ≥ 2^128, lines 371 and 404) before `get_sepolia_rpc_url()`
(panic when the variable is unset, lines 374 and 405); the `noReceipt`
string evaluates only the latter (line 383); the `minedFailed` string
evaluates neither. -/
def submitTx (env : Env) (amount_eth : ℚ) (wei : Nat) (fa ta : String) : RustOutcome String :=
  match env.gasPrice with
  | .error e => .ok ("Error getting gas price: " ++ e)
  | .ok gas_price =>
    let tx : TxRequest := { txTo := ta, txValue := wei, txFrom := fa }
    match env.estimateGas tx with
    | .error e => .ok ("Error estimating gas: " ++ e)
    | .ok gas_estimate =>
      match env.sendTx tx with
      | .error e => .ok ("Error sending transaction: " ++ e)
      | .ok tx_hash =>
        match env.confirm tx with
        | ConfirmResult.confirmed gasUsed blockNumber =>
          if gas_price < 2 ^ 128 then
            match env.sepoliaRpcUrl with
            | none => .panic sepoliaPanicMsg
            | some url =>
              .ok ("Transaction successfully sent " ++ showAmount amount_eth ++ " ETH from "
                ++ fa ++ " to " ++ ta
                ++ "\nGas Price: " ++ toString (gas_price / 1000000000) ++ " gwei"
                ++ "\nGas Used: " ++ toString (gasUsed.getD 0)
                ++ "\nBlock Number: " ++ toString (blockNumber.getD 0)
                ++ "\nNetwork: Sepolia (via " ++ url ++ ")"
                ++ "\nTransaction Hash: " ++ tx_hash)
          else .panic u128OverflowMsg
        | ConfirmResult.noReceipt =>
          match env.sepoliaRpcUrl with
          | none => .panic sepoliaPanicMsg
          | some url =>
            .ok ("Transaction submitted but no receipt was found.\n"
              ++ showAmount amount_eth ++ " ETH from " ++ fa ++ " to " ++ ta
              ++ "\nNetwork: Sepolia (via " ++ url ++ ")"
              ++ "\nTransaction Hash: " ++ tx_hash)
        | ConfirmResult.minedFailed e =>
          .ok ("Transaction submitted but failed: " ++ e ++ "\nTransaction Hash: " ++ tx_hash)
        | ConfirmResult.timeout =>
          if gas_price < 2 ^ 128 then
            match env.sepoliaRpcUrl with
            | none => .panic sepoliaPanicMsg
            | some url =>
              .ok ("Transaction submitted but confirmation timed out after 60 seconds.\n"
                ++ showAmount amount_eth ++ " ETH from " ++ fa ++ " to " ++ ta
                ++ "\nGas Price: " ++ toString (gas_price / 1000000000) ++ " gwei"
                ++ "\nGas Estimate: " ++ toString gas_estimate
                ++ "\nNetwork: Sepolia (via " ++ url ++ ")"
                ++ "\nTransaction Hash: " ++ tx_hash)
          else .panic u128OverflowMsg

/-- Lines 303-326 of src/tools.rs, after a signing key has been resolved:
decode the key, construct the provider (whose URL fallback can panic),
create the wallet, convert the ETH amount to wei, and continue with
submission. -/
def signAndSend (env : Env) (private_key : String) (amount_eth : ℚ) (fa ta : String) :
    RustOutcome String :=
  match hexDecode private_key with
  | none => .ok "Error: Invalid private key format"
  | some pkBytes =>
    match get_provider env with
    | .panic m => .panic m
    | .err e => .ok ("Error connecting to Ethereum node: " ++ e)
    | .ok _ =>
      match env.deriveAddress pkBytes with
      | none => .ok "Error: Failed to create wallet from private key"
      | some _ =>
        submitTx env amount_eth (rustCastToU128 (amount_eth * 1000000000000000000)) fa ta

/-- `eth_send_eth` from src/tools.rs: required-field check, address and amount
validation, then signing-key resolution (explicit override first, wallet
registry second, terminal error third), then signing and submission. -/
def eth_send_eth (env : Env) (w : Wallets) (from_address to_address amount : String)
    (provided_private_key : Option String) : RustOutcome String :=
  if from_address = "" ∨ to_address = "" ∨ amount = "" then
    .ok "Error: From address, to address, and amount are required"
  else
    match parseAddress from_address with
    | none => .ok ("Error: Invalid from address format: " ++ from_address)
    | some fa =>
      match parseAddress to_address with
      | none => .ok ("Error: Invalid to address format: " ++ to_address)
      | some ta =>
        match parseF64 amount with
        | none => .ok ("Error: Invalid amount: " ++ amount)
        | some amount_eth =>
          match provided_private_key with
          | some key => signAndSend env key amount_eth fa ta
          | none =>
            match lookupW w fa with
            | some key => signAndSend env key amount_eth fa ta
            | none =>
              .ok ("Error: No private key found for address " ++ fa
                ++ ". Please provide a private key.")

/-- The parsing front of `parse_and_execute_eth_send_command`: the four regex
extractions with the code's error strings, in the code's order. -/
def parseSendIntent (command : String) :
    Except String (String × String × String × Option String) :=
  match findMatch matchAmountAt command.data with
  | none => .error "Error: Could not parse ETH amount from command"
  | some amt =>
    match findMatch matchFromAt command.data with
    | none => .error "Error: Could not parse from address from command"
    | some fromA =>
      match findMatch matchToAt command.data with
      | none => .error "Error: Could not parse to address from command"
      | some toA =>
        .ok (String.mk amt, String.mk fromA, String.mk toA,
          (findMatch matchKeyAt command.data).map String.mk)

/-- `parse_and_execute_eth_send_command` from src/tools.rs: parse errors are
returned as `Ok` strings; a successful parse is passed straight to
`eth_send_eth`. -/
def parse_and_execute_eth_send_command (env : Env) (w : Wallets) (command : String) :
    RustOutcome String :=
  match parseSendIntent command with
  | .error msg => .ok msg
  | .ok (amt, fromA, toA, key) => eth_send_eth env w fromA toA amt key

/-- `execute_tool` from src/tools.rs.  Rust's match on string literals is an
equality chain, modelled as nested conditionals.  The wallet registry is
returned because the `generate` operation inserts into it. -/
def execute_tool (env : Env) (w : Wallets) (name : String) (args : Json) :
    RustOutcome String × Wallets :=
  if name = "get_weather" then
    (get_weather ((getStr args "city").getD "unknown"), w)
  else if name = "get_time" then
    (get_time env (getStr args "timezone"), w)
  else if name = "eth_wallet" then
    let operation := (getStr args "operation").getD "unknown"
    if operation = "generate" then
      eth_generate_wallet env w
    else if operation = "balance" then
      (eth_check_balance env ((getStr args "address").getD ""), w)
    else if operation = "send" then
      match getStr args "raw_command" with
      | some raw_command => (parse_and_execute_eth_send_command env w raw_command, w)
      | none =>
        (eth_send_eth env w ((getStr args "from_address").getD "")
          ((getStr args "to_address").getD "")
          ((getStr args "amount").getD "0")
          (getStr args "private_key"), w)
    else (.ok ("Unknown Ethereum wallet operation: " ++ operation), w)
  else (.ok ("Unknown tool: " ++ name), w)

/-! ### The agent loop (src/anthropic.rs)

The HTTP transport and request assembly are not observable in the embedding;
the stream of parsed model replies is supplied as an explicit finite list
(`fuel`).  An exhausted list models an HTTP-layer failure ending the trace,
which the code surfaces as a terminal error. -/

/-- A content block of a message (the `ContentBlock` enum of
src/anthropic.rs). -/
inductive ContentBlock where
  | text (t : String)
  | toolUse (id nm : String) (input : Json)
  | toolResult (tool_use_id : String) (content : String)

/-- The `Message` struct of src/anthropic.rs.  The three optional legacy
fields are always `None` at every construction site in the code and are kept
for shape faithfulness. -/
structure Message where
  role : String
  content : List ContentBlock
  tool_calls : Option (List (String × String × Json))
  tool_call_id : Option String
  name : Option String

/-- A legacy top-level tool call of `AnthropicResponse` (id, name,
parameters). -/
structure ToolCallLegacy where
  id : String
  name : String
  parameters : Json

/-- A parsed successful model reply (`AnthropicResponse`). -/
structure ModelReply where
  content : List ContentBlock
  tool_calls : List ToolCallLegacy

/-- The new-user-message push of lines 170-181: append a user text message
when the history is empty or the new prompt is non-empty. -/
def assembleMessages (previous : List Message) (prompt : String) : List Message :=
  if previous.isEmpty = true ∨ prompt ≠ "" then
    previous ++ [{ role := "user", content := [ContentBlock.text prompt],
                   tool_calls := none, tool_call_id := none, name := none }]
  else previous

/-- The assistant message holding solely the tool-invocation block
(lines 321-331). -/
def mkAssistantToolUse (id nm : String) (input : Json) : Message :=
  { role := "assistant", content := [ContentBlock.toolUse id nm input],
    tool_calls := none, tool_call_id := none, name := none }

/-- The user-role message holding solely the tool-result block
(lines 338-347). -/
def mkUserToolResult (id content : String) : Message :=
  { role := "user", content := [ContentBlock.toolResult id content],
    tool_calls := none, tool_call_id := none, name := none }

/-- First `tool_use` content block of a reply (lines 297-305). -/
def firstToolUse : List ContentBlock → Option (String × String × Json)
  | [] => none
  | ContentBlock.toolUse id nm input :: _ => some (id, nm, input)
  | _ :: rest => firstToolUse rest

/-- Reply classification of lines 290-314: a structured `tool_use` block is
preferred; the legacy top-level `tool_calls` list is the fallback, first
entry wins. -/
def firstToolCallOf (reply : ModelReply) : Option (String × String × Json) :=
  match firstToolUse reply.content with
  | some t => some t
  | none =>
    match reply.tool_calls with
    | [] => none
    | tc :: _ => some (tc.id, tc.name, tc.parameters)

/-- The text extraction of lines 354-369: concatenate all text blocks; an
empty or all-whitespace concatenation is replaced by the fixed placeholder. -/
def finalText (blocks : List ContentBlock) : String :=
  let text := String.join (blocks.filterMap (fun b =>
    match b with
    | ContentBlock.text t => some t
    | _ => none))
  if text.trim = "" then "I'm processing your request..." else text

/-- `call_anthropic_with_tools` from src/anthropic.rs.  `fuel` is the list of
model replies remaining in the trace; recursion consumes one per call.
The `?` on `execute_tool` propagates an `anyhow` error; a panic raised
inside a tool unwinds through the loop. -/
def call_anthropic_with_tools (env : Env) (w : Wallets) (fuel : List ModelReply)
    (prompt : String) (previous_messages : List Message) : RustOutcome String :=
  match env.anthropicApiKey with
  | none => .err "environment variable ANTHROPIC_API_KEY is not set"
  | some _ =>
    let messages := assembleMessages previous_messages prompt
    match fuel with
    | [] => .err "transport error: no model response"
    | reply :: rest =>
      match firstToolCallOf reply with
      | some (id, nm, input) =>
        match execute_tool env w nm input with
        | (.err e, _) => .err e
        | (.panic m, _) => .panic m
        | (.ok tool_result, w2) =>
          call_anthropic_with_tools env w2 rest ""
            (messages ++ [mkAssistantToolUse id nm input, mkUserToolResult id tool_result])
      | none => .ok (finalText reply.content)

/-- The fast-path test of line 99 of src/anthropic.rs:
`prompt.to_lowercase().starts_with("send") && prompt.contains("ETH")`,
expressed over the character list (character-wise ASCII lowercasing — on the
ASCII prefix "send" this agrees with Rust's Unicode `to_lowercase`). -/
def isDirectSendCommand (prompt : String) : Bool :=
  "send".data.isPrefixOf (prompt.data.map Char.toLower) && containsSubstr prompt "ETH"

/-- `call_anthropic_with_personality` from src/anthropic.rs: the direct
ETH-send fast path (an `anyhow` error from the tool is wrapped into an `Ok`
string; a panic propagates), otherwise the model loop with an empty
history. -/
def call_anthropic_with_personality (env : Env) (w : Wallets) (fuel : List ModelReply)
    (prompt : String) : RustOutcome String :=
  if isDirectSendCommand prompt then
    match execute_tool env w "eth_wallet"
        (Json.obj [("operation", Json.str "send"), ("raw_command", Json.str prompt)]) with
    | (.ok result, _) => .ok result
    | (.err e, _) => .ok ("Error executing ETH transaction: " ++ e)
    | (.panic m, _) => .panic m
  else
    call_anthropic_with_tools env w fuel prompt []

/-! ### Concrete fixtures used by witness instantiations -/

/-- A canonical lowercase test address. -/
def addrA : String := "0xaaaaaaaaaaaaaaaaaaaaaaaaaaaaaaaaaaaaaaaa"

/-- A second canonical lowercase test address. -/
def addrB : String := "0xbbbbbbbbbbbbbbbbbbbbbbbbbbbbbbbbbbbbbbbb"

/-- The address the fixture oracle derives for the fixture random bytes. -/
def addrC : String := "0xcccccccccccccccccccccccccccccccccccccccc"

/-- A 64-hex-digit private key. -/
def keyHex : String :=
  "1111111111111111111111111111111111111111111111111111111111111111"

/-- A concrete environment for witness instantiations: both RPC variables are
set and the node reports small values. -/
def envW : Env :=
  { anthropicApiKey := some "key",
    nowFormatted := "2026-01-01 00:00:00",
    ethRpcUrl := none,
    sepoliaRpcUrl := some "https://sepolia.example",
    providerFor := fun _ => .ok (),
    randomBytes := List.replicate 32 7,
    deriveAddress := fun bs =>
      if bs = List.replicate 32 7 then some addrC else some addrA,
    getBalance := fun _ => .error "node unreachable",
    mockR1 := 3,
    mockR2 := 123456,
    gasPrice := .ok 20000000000,
    estimateGas := fun _ => .ok 21000,
    sendTx := fun _ => .error "node rejected",
    confirm := fun _ => ConfirmResult.timeout }

/-- The counterexample environment: `ETH_RPC_URL` is set (so the provider is
constructed without touching `SEPOLIA_RPC_URL`) but `SEPOLIA_RPC_URL` is
unset, and a well-behaved node returns an in-range balance — the balance
success path then panics while formatting its result string. -/
def env0 : Env :=
  { anthropicApiKey := some "key",
    nowFormatted := "2026-01-01 00:00:00",
    ethRpcUrl := some "http://localhost:8545",
    sepoliaRpcUrl := none,
    providerFor := fun _ => .ok (),
    randomBytes := List.replicate 32 7,
    deriveAddress := fun _ => some addrC,
    getBalance := fun _ => .ok 1000000000000000000,
    mockR1 := 3,
    mockR2 := 123456,
    gasPrice := .ok 20000000000,
    estimateGas := fun _ => .ok 21000,
    sendTx := fun _ => .error "unused",
    confirm := fun _ => ConfirmResult.timeout }

/-! ## Helper lemmas -/

theorem parseAddress_empty : parseAddress "" = none := rfl

theorem parseF64_empty : parseF64 "" = none := rfl

theorem parseAddress_ne_empty {s : String} {a : String} (h : parseAddress s = some a) :
    s ≠ "" := by
  intro he
  rw [he, parseAddress_empty] at h
  exact Option.noConfusion h

theorem parseF64_ne_empty {s : String} {q : ℚ} (h : parseF64 s = some q) : s ≠ "" := by
  intro he
  rw [he, parseF64_empty] at h
  exact Option.noConfusion h

/-- No branch of `submitTx` is an `anyhow` error: every non-panicking path
returns an `Ok` string. -/
theorem submitTx_no_err (env : Env) (q : ℚ) (wei : Nat) (fa ta e : String) :
    submitTx env q wei fa ta ≠ RustOutcome.err e := by
  unfold submitTx
  dsimp only
  repeat' split
  all_goals exact fun h => RustOutcome.noConfusion h

theorem signAndSend_no_err (env : Env) (k : String) (q : ℚ) (fa ta e : String) :
    signAndSend env k q fa ta ≠ RustOutcome.err e := by
  unfold signAndSend
  repeat' split
  all_goals first
    | exact fun h => RustOutcome.noConfusion h
    | apply submitTx_no_err

theorem eth_send_eth_no_err (env : Env) (w : Wallets) (f t m : String) (pk : Option String)
    (e : String) : eth_send_eth env w f t m pk ≠ RustOutcome.err e := by
  unfold eth_send_eth
  repeat' split
  all_goals first
    | exact fun h => RustOutcome.noConfusion h
    | apply signAndSend_no_err

theorem parse_and_execute_no_err (env : Env) (w : Wallets) (c e : String) :
    parse_and_execute_eth_send_command env w c ≠ RustOutcome.err e := by
  unfold parse_and_execute_eth_send_command
  repeat' split
  all_goals first
    | exact fun h => RustOutcome.noConfusion h
    | apply eth_send_eth_no_err

/-- The raw-command send path ends in an `Ok` string or a panic, never an
`anyhow` error. -/
theorem parse_and_execute_cases (env : Env) (w : Wallets) (c : String) :
    (∃ s, parse_and_execute_eth_send_command env w c = RustOutcome.ok s)
    ∨ (∃ m, parse_and_execute_eth_send_command env w c = RustOutcome.panic m) := by
  cases h : parse_and_execute_eth_send_command env w c with
  | ok s => exact Or.inl ⟨s, rfl⟩
  | err e => exact absurd h (parse_and_execute_no_err env w c e)
  | panic m => exact Or.inr ⟨m, rfl⟩

/-- With `SEPOLIA_RPC_URL` set, provider construction cannot panic. -/
theorem get_provider_no_panic (env : Env) (url : String)
    (hu : env.sepoliaRpcUrl = some url) (m : String) :
    get_provider env ≠ RustOutcome.panic m := by
  unfold get_provider
  rw [hu]
  dsimp only
  repeat' split
  all_goals exact fun h => RustOutcome.noConfusion h

theorem submitTx_isOk (env : Env) (q : ℚ) (wei : Nat) (fa ta url : String)
    (hu : env.sepoliaRpcUrl = some url)
    (hg : ∀ g, env.gasPrice = Except.ok g → g < 2 ^ 128) :
    ∃ s, submitTx env q wei fa ta = RustOutcome.ok s := by
  unfold submitTx
  rw [hu]
  dsimp only
  repeat' split
  all_goals first
    | exact ⟨_, rfl⟩
    | exact absurd (hg _ (by assumption)) (by assumption)

theorem signAndSend_isOk (env : Env) (k : String) (q : ℚ) (fa ta url : String)
    (hu : env.sepoliaRpcUrl = some url)
    (hg : ∀ g, env.gasPrice = Except.ok g → g < 2 ^ 128) :
    ∃ s, signAndSend env k q fa ta = RustOutcome.ok s := by
  unfold signAndSend
  repeat' split
  all_goals first
    | exact ⟨_, rfl⟩
    | exact submitTx_isOk env q _ fa ta url hu hg
    | exact absurd (by assumption) (get_provider_no_panic env url hu _)

theorem eth_send_eth_isOk (env : Env) (w : Wallets) (f t m : String) (pk : Option String)
    (url : String) (hu : env.sepoliaRpcUrl = some url)
    (hg : ∀ g, env.gasPrice = Except.ok g → g < 2 ^ 128) :
    ∃ s, eth_send_eth env w f t m pk = RustOutcome.ok s := by
  unfold eth_send_eth
  repeat' split
  all_goals first
    | exact ⟨_, rfl⟩
    | exact signAndSend_isOk env _ _ _ _ url hu hg

theorem parse_and_execute_isOk (env : Env) (w : Wallets) (c url : String)
    (hu : env.sepoliaRpcUrl = some url)
    (hg : ∀ g, env.gasPrice = Except.ok g → g < 2 ^ 128) :
    ∃ s, parse_and_execute_eth_send_command env w c = RustOutcome.ok s := by
  unfold parse_and_execute_eth_send_command
  repeat' split
  all_goals first
    | exact ⟨_, rfl⟩
    | exact eth_send_eth_isOk env w _ _ _ _ url hu hg

theorem eth_check_balance_isOk (env : Env) (a url : String)
    (hu : env.sepoliaRpcUrl = some url)
    (hb : ∀ x b, env.getBalance x = Except.ok b → b < 2 ^ 128) :
    ∃ s, eth_check_balance env a = RustOutcome.ok s := by
  unfold eth_check_balance
  rw [hu]
  dsimp only
  repeat' split
  all_goals first
    | exact ⟨_, rfl⟩
    | exact absurd (hb _ _ (by assumption)) (by assumption)
    | exact absurd (by assumption) (get_provider_no_panic env url hu _)

theorem eth_generate_wallet_isOk (env : Env) (w : Wallets) :
    ∃ s, (eth_generate_wallet env w).1 = RustOutcome.ok s := by
  unfold eth_generate_wallet
  repeat' split
  all_goals exact ⟨_, rfl⟩

theorem get_weather_isOk (city : String) : ∃ s, get_weather city = RustOutcome.ok s := by
  unfold get_weather
  dsimp only
  repeat' split
  all_goals exact ⟨_, rfl⟩

theorem get_time_isOk (env : Env) (tz : Option String) :
    ∃ s, get_time env tz = RustOutcome.ok s := by
  unfold get_time
  repeat' split
  all_goals exact ⟨_, rfl⟩

theorem execute_tool_isOk (env : Env) (w : Wallets) (nm : String) (args : Json)
    (url : String) (hu : env.sepoliaRpcUrl = some url)
    (hb : ∀ x b, env.getBalance x = Except.ok b → b < 2 ^ 128)
    (hg : ∀ g, env.gasPrice = Except.ok g → g < 2 ^ 128) :
    ∃ s, (execute_tool env w nm args).1 = RustOutcome.ok s := by
  unfold execute_tool
  dsimp only
  repeat' split
  all_goals first
    | exact get_weather_isOk ..
    | exact get_time_isOk ..
    | exact eth_generate_wallet_isOk ..
    | exact eth_check_balance_isOk env _ url hu hb
    | exact parse_and_execute_isOk env w _ url hu hg
    | exact eth_send_eth_isOk env w _ _ _ _ url hu hg
    | exact ⟨_, rfl⟩

/-! ### Substring helpers -/

theorem isPrefixOf_append_self (l r : List Char) : l.isPrefixOf (l ++ r) = true := by
  induction l with
  | nil => simp [List.isPrefixOf]
  | cons c t ih => simp [List.isPrefixOf, ih]

theorem containsSubL_here (pat r : List Char) : containsSubL pat (pat ++ r) = true := by
  cases pat with
  | nil =>
    cases r with
    | nil => rfl
    | cons c t => simp [containsSubL, List.isPrefixOf]
  | cons p ps =>
    have h := isPrefixOf_append_self (p :: ps) r
    simp only [List.cons_append] at h ⊢
    simp only [containsSubL]
    rw [h]
    rfl

theorem containsSubL_append_right (pat l1 l2 : List Char) (h : containsSubL pat l2 = true) :
    containsSubL pat (l1 ++ l2) = true := by
  induction l1 with
  | nil => exact h
  | cons c t ih => simp [containsSubL, ih]

/-! ## Claims -/

/-- Claim C5: a balance query on a nonempty but syntactically invalid address
returns the "Invalid Ethereum address format" error string; the result is the
same for every environment, so no provider is constructed and no network call
is attempted. -/
theorem balance_invalid_address (env : Env) (addr : String)
    (hne : addr ≠ "") (hinv : parseAddress addr = none) :
    eth_check_balance env addr = .ok ("Error: Invalid Ethereum address format: " ++ addr)
      ∧ containsSubstr ("Error: Invalid Ethereum address format: " ++ addr)
          "Invalid Ethereum address format" = true := by
  constructor
  · unfold eth_check_balance
    rw [if_neg hne, hinv]
  · unfold containsSubstr
    rw [String.data_append]
    have hd : ("Error: Invalid Ethereum address format: ").data
        = "Error: ".data ++ ("Invalid Ethereum address format".data ++ ": ".data) := by decide
    rw [hd, List.append_assoc, List.append_assoc]
    exact containsSubL_append_right _ _ _ (containsSubL_here _ _)

/-- Claim C5 witness: the concrete scenario from the spec, address `"0xZZZ"`,
in an environment where nothing else would even succeed. -/
theorem balance_invalid_address_witness :
    eth_check_balance
        { anthropicApiKey := none, nowFormatted := "", ethRpcUrl := none,
          sepoliaRpcUrl := none, providerFor := fun _ => .error "unused",
          randomBytes := [], deriveAddress := fun _ => none,
          getBalance := fun _ => .error "unused", mockR1 := 0, mockR2 := 0,
          gasPrice := .error "unused", estimateGas := fun _ => .error "unused",
          sendTx := fun _ => .error "unused", confirm := fun _ => ConfirmResult.timeout }
        "0xZZZ"
      = .ok ("Error: Invalid Ethereum address format: " ++ "0xZZZ")
      ∧ containsSubstr ("Error: Invalid Ethereum address format: " ++ "0xZZZ")
          "Invalid Ethereum address format" = true :=
  balance_invalid_address _ "0xZZZ" (by decide) (by decide)

/-- Claim C6: when the address is valid and the provider is constructed but
the balance RPC call fails, the query does not propagate the error: it
returns the synthetic balance string labelled "mock". -/
theorem balance_rpc_failure_mock (env : Env) (addr a e : String)
    (ha : parseAddress addr = some a) (hp : get_provider env = .ok ())
    (hb : env.getBalance a = .error e) :
    eth_check_balance env addr
      = .ok ("Balance for address " ++ a ++ ": " ++ toString env.mockR1 ++ "."
          ++ toString env.mockR2 ++ " ETH (mock)")
    ∧ containsSubstr ("Balance for address " ++ a ++ ": " ++ toString env.mockR1 ++ "."
          ++ toString env.mockR2 ++ " ETH (mock)") "mock" = true := by
  constructor
  · have hne := parseAddress_ne_empty ha
    unfold eth_check_balance
    rw [if_neg hne]
    simp only [ha, hp, hb]
  · unfold containsSubstr
    rw [String.data_append]
    exact containsSubL_append_right _ _ _ (by decide)

/-- Claim C6 witness: concrete valid address, provider up, balance RPC down. -/
theorem balance_rpc_failure_mock_witness :
    eth_check_balance envW addrA
      = .ok ("Balance for address " ++ addrA ++ ": " ++ toString envW.mockR1 ++ "."
          ++ toString envW.mockR2 ++ " ETH (mock)")
    ∧ containsSubstr ("Balance for address " ++ addrA ++ ": " ++ toString envW.mockR1 ++ "."
          ++ toString envW.mockR2 ++ " ETH (mock)") "mock" = true :=
  balance_rpc_failure_mock envW addrA addrA "node unreachable" (by decide) rfl rfl

/-- Claim C7 counterexample, refuting "execute on any registered name with
well-formed arguments never fails unrecoverably": in `env0` — `ETH_RPC_URL`
set, `SEPOLIA_RPC_URL` unset, a healthy node returning an in-range balance —
a well-formed balance query on the registered `eth_wallet` tool makes
`execute_tool` abort with the `expect` panic of `get_sepolia_rpc_url`
(src/tools.rs lines 152-155, reached from the success format string at line
215) instead of returning a string result. -/
theorem dispatcher_unrecoverable_counterexample :
    (execute_tool env0 [] "eth_wallet"
        (Json.obj [("operation", Json.str "balance"), ("address", Json.str addrA)])).1
      = RustOutcome.panic sepoliaPanicMsg := by
  decide

/-- Claim C7 (amended): the tool list has no duplicate names; an unknown tool
name yields the user-visible "Unknown tool" string; and `execute_tool`
returns an `Ok` string for every tool name and argument bag provided the
`SEPOLIA_RPC_URL` variable is set and the RPC-reported balances and gas
price fit in 128 bits.  Without that proviso the code can abort
unrecoverably (`dispatcher_unrecoverable_counterexample`): the lazily-read
`env::var("SEPOLIA_RPC_URL").expect` and the `U256::as_u128` casts panic
inside result formatting. -/
theorem dispatcher_totality :
    (get_available_tools.map Tool.name).Nodup
    ∧ (∀ (env : Env) (w : Wallets) (nm : String) (args : Json) (url : String),
        env.sepoliaRpcUrl = some url →
        (∀ x b, env.getBalance x = Except.ok b → b < 2 ^ 128) →
        (∀ g, env.gasPrice = Except.ok g → g < 2 ^ 128) →
        ∃ s, (execute_tool env w nm args).1 = RustOutcome.ok s)
    ∧ (∀ (env : Env) (w : Wallets) (nm : String) (args : Json),
        nm ∉ get_available_tools.map Tool.name →
        (execute_tool env w nm args).1 = RustOutcome.ok ("Unknown tool: " ++ nm)) := by
  refine ⟨by decide,
    fun env w nm args url hu hb hg => execute_tool_isOk env w nm args url hu hb hg, ?_⟩
  intro env w nm args hnm
  simp only [get_available_tools, List.map_cons, List.map_nil, List.mem_cons,
    List.not_mem_nil, or_false, not_or] at hnm
  obtain ⟨h1, h2, h3⟩ := hnm
  unfold execute_tool
  rw [if_neg h1, if_neg h2, if_neg h3]

/-- Claim C7 witness: under the proviso, a well-formed balance query returns
an `Ok` string, and a nonexistent tool name yields the "Unknown tool"
string. -/
theorem dispatcher_totality_witness :
    (∃ s, (execute_tool envW [] "eth_wallet"
        (Json.obj [("operation", Json.str "balance"), ("address", Json.str addrA)])).1
      = RustOutcome.ok s)
    ∧ (execute_tool envW [] "frobnicate" Json.scalar).1
      = RustOutcome.ok ("Unknown tool: " ++ "frobnicate") :=
  ⟨dispatcher_totality.2.1 envW []
      "eth_wallet" (Json.obj [("operation", Json.str "balance"), ("address", Json.str addrA)])
      "https://sepolia.example" rfl
      (fun x b h => by simp [envW] at h)
      (fun g h => by
        rw [show envW.gasPrice = Except.ok 20000000000 from rfl] at h
        cases h
        decide),
   dispatcher_totality.2.2 envW [] "frobnicate" Json.scalar (by decide)⟩

theorem hexDigitVal_hexDigitChar (x : Nat) (h : x < 16) :
    hexDigitVal (hexDigitChar x) = some x := by
  interval_cases x <;> decide

theorem hexDecodeL_encode (bs : List Nat) (h : ∀ b ∈ bs, b < 256) :
    hexDecodeL (bs.flatMap (fun b => [hexDigitChar (b / 16), hexDigitChar (b % 16)]))
      = some bs := by
  induction bs with
  | nil => rfl
  | cons b rest ih =>
    have hb : b < 256 := h b (List.mem_cons_self b rest)
    have h1 : b / 16 < 16 := Nat.div_lt_of_lt_mul (by omega)
    have h2 : b % 16 < 16 := Nat.mod_lt _ (by norm_num)
    have hrest := ih (fun x hx => h x (List.mem_cons_of_mem _ hx))
    have hcons : (b :: rest).flatMap (fun x => [hexDigitChar (x / 16), hexDigitChar (x % 16)])
        = hexDigitChar (b / 16) :: hexDigitChar (b % 16)
          :: rest.flatMap (fun x => [hexDigitChar (x / 16), hexDigitChar (x % 16)]) := rfl
    rw [hcons]
    simp only [hexDecodeL, hexDigitVal_hexDigitChar _ h1, hexDigitVal_hexDigitChar _ h2, hrest]
    rw [Nat.div_add_mod b 16]
    rfl

theorem hexDecode_hexEncode (bs : List Nat) (h : ∀ b ∈ bs, b < 256) :
    hexDecode (hexEncode bs) = some bs :=
  hexDecodeL_encode bs h

/-- Claim C8: wallet generation stores the hex-encoded private key under the
derived address, and re-deriving the address from the stored private key
(decode the hex, re-run address derivation) yields exactly the address that
was stored and returned. -/
theorem wallet_generate_roundtrip (env : Env) (w : Wallets) (addr : String)
    (hlen : env.randomBytes.length = 32)
    (hb : ∀ b ∈ env.randomBytes, b < 256)
    (hd : env.deriveAddress env.randomBytes = some addr) :
    (eth_generate_wallet env w).1
      = .ok ("Generated new Ethereum wallet:\nAddress: " ++ addr
          ++ "\nPrivate Key: " ++ hexEncode env.randomBytes)
    ∧ lookupW (eth_generate_wallet env w).2 addr = some (hexEncode env.randomBytes)
    ∧ (hexDecode (hexEncode env.randomBytes)).bind env.deriveAddress = some addr := by
  refine ⟨?_, ?_, ?_⟩
  · unfold eth_generate_wallet
    simp only [hd]
  · unfold eth_generate_wallet
    simp only [hd]
    simp [insertW, lookupW]
  · rw [hexDecode_hexEncode env.randomBytes hb]
    simpa using hd

/-- Claim C8 witness: concrete 32 random bytes round-trip through the
registry. -/
theorem wallet_generate_roundtrip_witness :
    (eth_generate_wallet envW []).1
      = .ok ("Generated new Ethereum wallet:\nAddress: " ++ addrC
          ++ "\nPrivate Key: " ++ hexEncode envW.randomBytes)
    ∧ lookupW (eth_generate_wallet envW []).2 addrC = some (hexEncode envW.randomBytes)
    ∧ (hexDecode (hexEncode envW.randomBytes)).bind envW.deriveAddress = some addrC :=
  wallet_generate_roundtrip envW [] addrC (by decide) (by decide) (by decide)

theorem parseF64_001 : parseF64 "0.01" = some (1 / 100) := by
  have h : parseF64 "0.01"
      = some ((1 : ℚ) * ((natOfDigits ['0'] : ℚ)
          + (natOfDigits ['0', '1'] : ℚ) / (10 : ℚ) ^ (2 : Nat))) := rfl
  rw [h, show natOfDigits ['0'] = 0 from rfl, show natOfDigits ['0', '1'] = 1 from rfl]
  norm_num

theorem parseF64_neg1 : parseF64 "-1" = some (-1) := by
  have h : parseF64 "-1" = some ((-1 : ℚ) * (natOfDigits ['1'] : ℚ)) := rfl
  rw [h, show natOfDigits ['1'] = 1 from rfl]
  norm_num

theorem parseF64_zero : parseF64 "0" = some 0 := by
  have h : parseF64 "0" = some ((1 : ℚ) * (natOfDigits ['0'] : ℚ)) := rfl
  rw [h, show natOfDigits ['0'] = 0 from rfl]
  norm_num

theorem eth_send_eth_nonempty {f t m : String} {q : ℚ} {fa ta : String}
    (hf : parseAddress f = some fa) (ht : parseAddress t = some ta)
    (hm : parseF64 m = some q) : ¬(f = "" ∨ t = "" ∨ m = "") := by
  push_neg
  exact ⟨parseAddress_ne_empty hf, parseAddress_ne_empty ht, parseF64_ne_empty hm⟩

theorem eth_send_eth_override (env : Env) (w : Wallets) (f t m : String) (q : ℚ)
    (fa ta k : String)
    (hf : parseAddress f = some fa) (ht : parseAddress t = some ta)
    (hm : parseF64 m = some q) :
    eth_send_eth env w f t m (some k) = signAndSend env k q fa ta := by
  unfold eth_send_eth
  rw [if_neg (eth_send_eth_nonempty hf ht hm)]
  simp only [hf, ht, hm]

theorem eth_send_eth_registry (env : Env) (w : Wallets) (f t m : String) (q : ℚ)
    (fa ta k : String)
    (hf : parseAddress f = some fa) (ht : parseAddress t = some ta)
    (hm : parseF64 m = some q) (hk : lookupW w fa = some k) :
    eth_send_eth env w f t m none = signAndSend env k q fa ta := by
  unfold eth_send_eth
  rw [if_neg (eth_send_eth_nonempty hf ht hm)]
  simp only [hf, ht, hm, hk]

theorem eth_send_eth_nokey (env : Env) (w : Wallets) (f t m : String) (q : ℚ)
    (fa ta : String)
    (hf : parseAddress f = some fa) (ht : parseAddress t = some ta)
    (hm : parseF64 m = some q) (hk : lookupW w fa = none) :
    eth_send_eth env w f t m none
      = .ok ("Error: No private key found for address " ++ fa
          ++ ". Please provide a private key.") := by
  unfold eth_send_eth
  rw [if_neg (eth_send_eth_nonempty hf ht hm)]
  simp only [hf, ht, hm, hk]

theorem signAndSend_valid (env : Env) (k : String) (q : ℚ) (fa ta aw : String)
    (pkBytes : List Nat)
    (hdk : hexDecode k = some pkBytes) (hp : get_provider env = .ok ())
    (hw : env.deriveAddress pkBytes = some aw) :
    signAndSend env k q fa ta
      = submitTx env q (rustCastToU128 (q * 1000000000000000000)) fa ta := by
  unfold signAndSend
  simp only [hdk, hp, hw]

/-- Claim C3: for a send with validated addresses and amount, the signing key
is resolved from the explicit override when supplied; otherwise from the
wallet registry keyed by the (canonical) source address; and when neither is
present the result is the terminal error string naming the source address —
for every environment, so no transaction is submitted and no other key is
used. -/
theorem signing_key_resolution (env : Env) (w : Wallets) (f t m : String) (q : ℚ)
    (fa ta k k2 : String)
    (hf : parseAddress f = some fa) (ht : parseAddress t = some ta)
    (hm : parseF64 m = some q) :
    eth_send_eth env w f t m (some k) = signAndSend env k q fa ta
    ∧ (lookupW w fa = some k2 →
        eth_send_eth env w f t m none = signAndSend env k2 q fa ta)
    ∧ (lookupW w fa = none →
        eth_send_eth env w f t m none
          = .ok ("Error: No private key found for address " ++ fa
              ++ ". Please provide a private key.")) :=
  ⟨eth_send_eth_override env w f t m q fa ta k hf ht hm,
   fun hk => eth_send_eth_registry env w f t m q fa ta k2 hf ht hm hk,
   fun hk => eth_send_eth_nokey env w f t m q fa ta hf ht hm hk⟩

/-- Claim C3 witness: concrete send against an empty registry. -/
theorem signing_key_resolution_witness :
    eth_send_eth envW [] addrA addrB "0.01" (some keyHex)
        = signAndSend envW keyHex (1 / 100) addrA addrB
    ∧ (lookupW [] addrA = some keyHex →
        eth_send_eth envW [] addrA addrB "0.01" none
          = signAndSend envW keyHex (1 / 100) addrA addrB)
    ∧ (lookupW [] addrA = none →
        eth_send_eth envW [] addrA addrB "0.01" none
          = .ok ("Error: No private key found for address " ++ addrA
              ++ ". Please provide a private key.")) :=
  signing_key_resolution envW [] addrA addrB "0.01" (1 / 100) addrA addrB keyHex keyHex
    (by decide) (by decide) parseF64_001

/-- Claim C10: a negative amount string passes the amount validation, the
wei conversion saturates at zero, and the send proceeds to build and submit a
transaction carrying the value 0 instead of rejecting the amount. -/
theorem negative_amount_saturates (env : Env) (w : Wallets) (f t m : String) (q : ℚ)
    (fa ta k aw : String) (pkBytes : List Nat)
    (hf : parseAddress f = some fa) (ht : parseAddress t = some ta)
    (hm : parseF64 m = some q) (hneg : q < 0)
    (hdk : hexDecode k = some pkBytes) (hp : get_provider env = .ok ())
    (hw : env.deriveAddress pkBytes = some aw) :
    eth_send_eth env w f t m (some k) = submitTx env q 0 fa ta
    ∧ rustCastToU128 (q * 1000000000000000000) = 0 := by
  have hz : rustCastToU128 (q * 1000000000000000000) = 0 := by
    unfold rustCastToU128
    rw [if_pos (mul_neg_of_neg_of_pos hneg (by norm_num))]
  refine ⟨?_, hz⟩
  rw [eth_send_eth_override env w f t m q fa ta k hf ht hm,
    signAndSend_valid env k q fa ta aw pkBytes hdk hp hw, hz]

/-- Claim C10 witness: amount "-1" on concrete addresses and key. -/
theorem negative_amount_saturates_witness :
    eth_send_eth envW [] addrA addrB "-1" (some keyHex) = submitTx envW (-1) 0 addrA addrB
    ∧ rustCastToU128 ((-1) * 1000000000000000000) = 0 :=
  negative_amount_saturates envW [] addrA addrB "-1" (-1) addrA addrB keyHex addrA
    (List.replicate 32 17) (by decide) (by decide) parseF64_neg1 (by decide) (by decide)
    rfl (by decide)

theorem rustCastToU128_zero_mul :
    rustCastToU128 (0 * 1000000000000000000) = 0 := by
  norm_num [rustCastToU128]

/-- Claim C9: a structured eth_wallet send (no raw_command) whose argument bag
omits "amount" gets the sentinel "0", which passes both the non-empty check
and the numeric parse, so with valid addresses and a key a zero-value
transaction is attempted rather than a missing-amount error; an absent
from_address (defaulting to "") is what triggers the required-fields error. -/
theorem missing_amount_defaults_zero
    (env : Env) (w : Wallets) (args args2 : Json) (f t : String)
    (hop : getStr args "operation" = some "send")
    (hraw : getStr args "raw_command" = none)
    (hfrom : getStr args "from_address" = some f)
    (hto : getStr args "to_address" = some t)
    (hamt : getStr args "amount" = none) :
    execute_tool env w "eth_wallet" args
      = (eth_send_eth env w f t "0" (getStr args "private_key"), w)
    ∧ (parseF64 "0" = some 0 ∧ "0" ≠ "")
    ∧ (∀ (fa ta k aw : String) (pkBytes : List Nat),
        parseAddress f = some fa → parseAddress t = some ta →
        getStr args "private_key" = some k →
        hexDecode k = some pkBytes → get_provider env = .ok () →
        env.deriveAddress pkBytes = some aw →
        eth_send_eth env w f t "0" (some k) = submitTx env 0 0 fa ta)
    ∧ (getStr args2 "operation" = some "send" →
        getStr args2 "raw_command" = none →
        getStr args2 "from_address" = none →
        execute_tool env w "eth_wallet" args2
          = (.ok "Error: From address, to address, and amount are required", w)) := by
  refine ⟨?_, ⟨parseF64_zero, by decide⟩, ?_, ?_⟩
  · unfold execute_tool
    rw [if_neg (show ¬("eth_wallet" : String) = "get_weather" by decide),
      if_neg (show ¬("eth_wallet" : String) = "get_time" by decide), if_pos rfl]
    dsimp only
    rw [hop]
    simp [hraw, hfrom, hto, hamt]
  · intro fa ta k aw pkBytes hfa hta hk hdk hp hw
    rw [eth_send_eth_override env w f t "0" 0 fa ta k hfa hta parseF64_zero,
      signAndSend_valid env k 0 fa ta aw pkBytes hdk hp hw, rustCastToU128_zero_mul]
  · intro h1 h2 h3
    unfold execute_tool
    rw [if_neg (show ¬("eth_wallet" : String) = "get_weather" by decide),
      if_neg (show ¬("eth_wallet" : String) = "get_time" by decide), if_pos rfl]
    dsimp only
    rw [h1]
    simp [h2, h3]
    unfold eth_send_eth
    rw [if_pos (Or.inl rfl)]

/-- Claim C9 witness: argument bags with and without the required address
fields, both omitting "amount". -/
theorem missing_amount_defaults_zero_witness :
    execute_tool envW [] "eth_wallet"
        (Json.obj [("operation", Json.str "send"), ("from_address", Json.str addrA),
          ("to_address", Json.str addrB), ("private_key", Json.str keyHex)])
      = (eth_send_eth envW [] addrA addrB "0"
          (getStr (Json.obj [("operation", Json.str "send"), ("from_address", Json.str addrA),
            ("to_address", Json.str addrB), ("private_key", Json.str keyHex)]) "private_key"), [])
    ∧ (parseF64 "0" = some 0 ∧ "0" ≠ "")
    ∧ (∀ (fa ta k aw : String) (pkBytes : List Nat),
        parseAddress addrA = some fa → parseAddress addrB = some ta →
        getStr (Json.obj [("operation", Json.str "send"), ("from_address", Json.str addrA),
          ("to_address", Json.str addrB), ("private_key", Json.str keyHex)]) "private_key" = some k →
        hexDecode k = some pkBytes → get_provider envW = .ok () →
        envW.deriveAddress pkBytes = some aw →
        eth_send_eth envW [] addrA addrB "0" (some k) = submitTx envW 0 0 fa ta)
    ∧ (getStr (Json.obj [("operation", Json.str "send")]) "operation" = some "send" →
        getStr (Json.obj [("operation", Json.str "send")]) "raw_command" = none →
        getStr (Json.obj [("operation", Json.str "send")]) "from_address" = none →
        execute_tool envW [] "eth_wallet" (Json.obj [("operation", Json.str "send")])
          = (.ok "Error: From address, to address, and amount are required", [])) :=
  missing_amount_defaults_zero envW []
    (Json.obj [("operation", Json.str "send"), ("from_address", Json.str addrA),
      ("to_address", Json.str addrB), ("private_key", Json.str keyHex)])
    (Json.obj [("operation", Json.str "send")]) addrA addrB rfl rfl rfl rfl rfl

/-- Claim C1: when the raw input starts (case-insensitively) with "send" and
contains the token "ETH", the agent skips the model entirely: for every trace
of model replies the final answer equals executing the eth_wallet tool on the
raw text as command payload (the tool never returns an `anyhow` error here,
so the error-mapping branch is not taken; a panic propagates identically on
both sides). -/
theorem fast_path_direct_send (env : Env) (w : Wallets) (fuel : List ModelReply)
    (prompt : String)
    (h : isDirectSendCommand prompt = true) :
    call_anthropic_with_personality env w fuel prompt
      = parse_and_execute_eth_send_command env w prompt
    ∧ (execute_tool env w "eth_wallet"
          (Json.obj [("operation", Json.str "send"), ("raw_command", Json.str prompt)])).1
        = parse_and_execute_eth_send_command env w prompt := by
  have hexec : execute_tool env w "eth_wallet"
      (Json.obj [("operation", Json.str "send"), ("raw_command", Json.str prompt)])
      = (parse_and_execute_eth_send_command env w prompt, w) := rfl
  constructor
  · unfold call_anthropic_with_personality
    rw [if_pos h, hexec]
    rcases parse_and_execute_cases env w prompt with ⟨s, hs⟩ | ⟨m, hm⟩
    · rw [hs]
    · rw [hm]
  · rw [hexec]

/-- Claim C1 witness: a concrete direct-send prompt. -/
theorem fast_path_direct_send_witness :
    call_anthropic_with_personality envW [] [] "send 1 ETH"
      = parse_and_execute_eth_send_command envW [] "send 1 ETH"
    ∧ (execute_tool envW [] "eth_wallet"
          (Json.obj [("operation", Json.str "send"), ("raw_command", Json.str "send 1 ETH")])).1
        = parse_and_execute_eth_send_command envW [] "send 1 ETH" :=
  fast_path_direct_send envW [] [] "send 1 ETH" (by decide)

/-- Claim C4: a model reply containing a tool-invocation block makes the loop
execute exactly that tool once and recurse on the rest of the trace with an
empty new-user prompt and exactly two messages appended — the assistant
message holding solely the tool-use block and the user message holding solely
the matching tool-result block — and the recursive call appends no further
user turn for the empty prompt, so the history grows by exactly 2 per tool
round-trip. -/
theorem tool_roundtrip_two_messages (env : Env) (w w2 : Wallets)
    (fuel : List ModelReply) (reply : ModelReply) (prompt : String)
    (prev : List Message) (id nm : String) (input : Json) (tr k : String)
    (hkey : env.anthropicApiKey = some k)
    (hfirst : firstToolCallOf reply = some (id, nm, input))
    (hexec : execute_tool env w nm input = (.ok tr, w2)) :
    call_anthropic_with_tools env w (reply :: fuel) prompt prev
      = call_anthropic_with_tools env w2 fuel ""
          (assembleMessages prev prompt
            ++ [mkAssistantToolUse id nm input, mkUserToolResult id tr])
    ∧ (assembleMessages prev prompt
        ++ [mkAssistantToolUse id nm input, mkUserToolResult id tr]).length
      = (assembleMessages prev prompt).length + 2
    ∧ assembleMessages
        (assembleMessages prev prompt
          ++ [mkAssistantToolUse id nm input, mkUserToolResult id tr]) ""
      = assembleMessages prev prompt
          ++ [mkAssistantToolUse id nm input, mkUserToolResult id tr] := by
  refine ⟨?_, by simp, ?_⟩
  · conv_lhs => unfold call_anthropic_with_tools
    simp only [hkey, hfirst, hexec]
  · unfold assembleMessages
    rw [if_neg (by simp)]

/-- Claim C4 witness: a concrete reply invoking the weather tool. -/
theorem tool_roundtrip_two_messages_witness :
    call_anthropic_with_tools envW []
        [{ content := [ContentBlock.toolUse "toolu_1" "get_weather"
             (Json.obj [("city", Json.str "Cairo")])], tool_calls := [] }]
        "what is the weather?" []
      = call_anthropic_with_tools envW [] [] ""
          (assembleMessages [] "what is the weather?"
            ++ [mkAssistantToolUse "toolu_1" "get_weather" (Json.obj [("city", Json.str "Cairo")]),
                mkUserToolResult "toolu_1" "30°C, sunny"])
    ∧ (assembleMessages [] "what is the weather?"
        ++ [mkAssistantToolUse "toolu_1" "get_weather" (Json.obj [("city", Json.str "Cairo")]),
            mkUserToolResult "toolu_1" "30°C, sunny"]).length
      = (assembleMessages [] "what is the weather?").length + 2
    ∧ assembleMessages
        (assembleMessages [] "what is the weather?"
          ++ [mkAssistantToolUse "toolu_1" "get_weather" (Json.obj [("city", Json.str "Cairo")]),
              mkUserToolResult "toolu_1" "30°C, sunny"]) ""
      = assembleMessages [] "what is the weather?"
          ++ [mkAssistantToolUse "toolu_1" "get_weather" (Json.obj [("city", Json.str "Cairo")]),
              mkUserToolResult "toolu_1" "30°C, sunny"] :=
  tool_roundtrip_two_messages envW [] []
    [] { content := [ContentBlock.toolUse "toolu_1" "get_weather"
           (Json.obj [("city", Json.str "Cairo")])], tool_calls := [] }
    "what is the weather?" [] "toolu_1" "get_weather"
    (Json.obj [("city", Json.str "Cairo")]) "30°C, sunny" "key" rfl rfl rfl

/-! ### Lemmas about the regex scanners -/

theorem takeWhile_append_all {p : Char → Bool} (l1 l2 : List Char)
    (h : ∀ c ∈ l1, p c = true) :
    (l1 ++ l2).takeWhile p = l1 ++ l2.takeWhile p
      ∧ (l1 ++ l2).dropWhile p = l2.dropWhile p := by
  induction l1 with
  | nil => exact ⟨rfl, rfl⟩
  | cons c t ih =>
    have hc : p c = true := h c (List.mem_cons_self c t)
    have iht := ih (fun x hx => h x (List.mem_cons_of_mem _ hx))
    constructor
    · simp [List.takeWhile_cons, hc, iht.1]
    · simp [List.dropWhile_cons, hc, iht.2]

theorem findMatch_append_skip (m : List Char → Option (List Char)) (l1 l2 : List Char)
    (h : ∀ c ∈ l1, ∀ cs, m (c :: cs) = none) :
    findMatch m (l1 ++ l2) = findMatch m l2 := by
  induction l1 with
  | nil => rfl
  | cons c t ih =>
    have hc := h c (List.mem_cons_self c t)
    have iht := ih (fun x hx => h x (List.mem_cons_of_mem _ hx))
    simp [findMatch, hc, iht]

theorem findMatch_none (m : List Char → Option (List Char)) (l : List Char)
    (h : ∀ c ∈ l, ∀ cs, m (c :: cs) = none) :
    findMatch m l = none := by
  induction l with
  | nil => rfl
  | cons c t ih =>
    simp [findMatch, h c (List.mem_cons_self c t),
      ih (fun x hx => h x (List.mem_cons_of_mem _ hx))]

theorem matchAmountAt_nondigit {c : Char} (h : c.isDigit = false) (cs : List Char) :
    matchAmountAt (c :: cs) = none := by
  simp [matchAmountAt, List.takeWhile_cons, h]

theorem matchLit_head_ne {l c : Char} (ls cs : List Char) (h : c ≠ l) :
    matchLit (l :: ls) (c :: cs) = none := by
  simp [matchLit, h]

theorem matchLit_self (lit r : List Char) : matchLit lit (lit ++ r) = some r := by
  induction lit with
  | nil => rfl
  | cons c t ih => simp [matchLit, ih]

theorem matchFromAt_head_ne {c : Char} (h : c ≠ 'f') (cs : List Char) :
    matchFromAt (c :: cs) = none := by
  have hd : "from 0x".data = 'f' :: "rom 0x".data := rfl
  simp [matchFromAt, hd, matchLit_head_ne _ _ h]

theorem matchToAt_head_ne {c : Char} (h : c ≠ 't') (cs : List Char) :
    matchToAt (c :: cs) = none := by
  have hd : "to 0x".data = 't' :: "o 0x".data := rfl
  simp [matchToAt, hd, matchLit_head_ne _ _ h]

theorem matchKeyAt_head_ne {c : Char} (h : c ≠ 'p') (cs : List Char) :
    matchKeyAt (c :: cs) = none := by
  have hd : "private key ".data = 'p' :: "rivate key ".data := rfl
  simp [matchKeyAt, hd, matchLit_head_ne _ _ h]

theorem takeHex_exact (h rest : List Char) (hhex : ∀ c ∈ h, isHexDigit c = true) :
    takeHex h.length (h ++ rest) = some h := by
  induction h with
  | nil => rfl
  | cons c t ih =>
    simp [takeHex, hhex c (List.mem_cons_self c t),
      ih (fun x hx => hhex x (List.mem_cons_of_mem _ hx))]

theorem matchFromAt_at (h1 rest : List Char) (hlen : h1.length = 40)
    (hhex : ∀ c ∈ h1, isHexDigit c = true) :
    matchFromAt ("from 0x".data ++ (h1 ++ rest)) = some ('0' :: 'x' :: h1) := by
  unfold matchFromAt
  rw [matchLit_self]
  dsimp only
  rw [← hlen, takeHex_exact h1 rest hhex]
  rfl

theorem matchToAt_at (h1 rest : List Char) (hlen : h1.length = 40)
    (hhex : ∀ c ∈ h1, isHexDigit c = true) :
    matchToAt ("to 0x".data ++ (h1 ++ rest)) = some ('0' :: 'x' :: h1) := by
  unfold matchToAt
  rw [matchLit_self]
  dsimp only
  rw [← hlen, takeHex_exact h1 rest hhex]
  rfl

theorem isAmountToken_decomp {amt : List Char} (h : isAmountToken amt = true) :
    amt.takeWhile Char.isDigit ≠ []
    ∧ (amt.dropWhile Char.isDigit = []
       ∨ ∃ ds, amt.dropWhile Char.isDigit = '.' :: ds ∧ (∀ c ∈ ds, c.isDigit = true)) := by
  unfold isAmountToken at h
  rw [Bool.and_eq_true] at h
  obtain ⟨h1, h2⟩ := h
  refine ⟨by simpa using h1, ?_⟩
  split at h2
  · exact Or.inl (by assumption)
  · rename_i ds heq
    exact Or.inr ⟨ds, heq, List.all_eq_true.mp h2⟩
  · exact absurd h2 (by simp)

theorem isAmountToken_mem {amt : List Char} (h : isAmountToken amt = true) :
    ∀ c ∈ amt, c.isDigit = true ∨ c = '.' := by
  obtain ⟨_, h2⟩ := isAmountToken_decomp h
  intro c hc
  rw [← List.takeWhile_append_dropWhile Char.isDigit amt] at hc
  rcases List.mem_append.mp hc with hm | hm
  · exact Or.inl (List.mem_takeWhile_imp hm)
  · rcases h2 with hd | ⟨ds, hd, hall⟩
    · rw [hd] at hm
      cases hm
    · rw [hd] at hm
      rcases List.mem_cons.mp hm with heq | hm2
      · exact Or.inr heq
      · exact Or.inl (hall c hm2)

theorem matchSpaceETH_spaceETH (rest : List Char) :
    matchSpaceETH (' ' :: 'E' :: 'T' :: 'H' :: rest) = true := rfl

theorem matchAmountAt_token {amt : List Char} (rest : List Char)
    (h : isAmountToken amt = true) :
    matchAmountAt (amt ++ ' ' :: 'E' :: 'T' :: 'H' :: rest) = some amt := by
  obtain ⟨h1, h2⟩ := isAmountToken_decomp h
  have hsplit := List.takeWhile_append_dropWhile Char.isDigit amt
  have hemp : (amt.takeWhile Char.isDigit).isEmpty = false := by
    cases htw : amt.takeWhile Char.isDigit
    · exact absurd htw h1
    · rfl
  have hsp : (' ' :: 'E' :: 'T' :: 'H' :: rest).takeWhile Char.isDigit = [] := rfl
  have hsp2 : (' ' :: 'E' :: 'T' :: 'H' :: rest).dropWhile Char.isDigit
      = ' ' :: 'E' :: 'T' :: 'H' :: rest := rfl
  rcases h2 with hd | ⟨ds, hd, hall⟩
  · -- the token is all digits
    have hamt : amt.takeWhile Char.isDigit = amt := by
      conv_rhs => rw [← hsplit]
      rw [hd, List.append_nil]
    have hdig : ∀ c ∈ amt, Char.isDigit c = true := by
      intro c hc
      rw [← hamt] at hc
      exact List.mem_takeWhile_imp hc
    obtain ⟨ht, hdp⟩ :=
      takeWhile_append_all amt (' ' :: 'E' :: 'T' :: 'H' :: rest) hdig
    unfold matchAmountAt
    rw [ht, hdp, hsp, hsp2, List.append_nil]
    rw [hamt] at hemp
    simp [hemp, matchSpaceETH_spaceETH]
  · -- digits, a dot, then digits
    have hd1 : ∀ c ∈ amt.takeWhile Char.isDigit, Char.isDigit c = true :=
      fun c hc => List.mem_takeWhile_imp hc
    have hshape : amt = amt.takeWhile Char.isDigit ++ '.' :: ds := by
      conv_lhs => rw [← hsplit]
      rw [hd]
    have hassoc : amt ++ ' ' :: 'E' :: 'T' :: 'H' :: rest
        = amt.takeWhile Char.isDigit
            ++ ('.' :: (ds ++ ' ' :: 'E' :: 'T' :: 'H' :: rest)) := by
      conv_lhs => rw [hshape]
      simp [List.append_assoc]
    obtain ⟨ht, hdp⟩ := takeWhile_append_all
      (amt.takeWhile Char.isDigit) ('.' :: (ds ++ ' ' :: 'E' :: 'T' :: 'H' :: rest)) hd1
    have hdot1 : ('.' :: (ds ++ ' ' :: 'E' :: 'T' :: 'H' :: rest)).takeWhile Char.isDigit
        = [] := rfl
    have hdot2 : ('.' :: (ds ++ ' ' :: 'E' :: 'T' :: 'H' :: rest)).dropWhile Char.isDigit
        = '.' :: (ds ++ ' ' :: 'E' :: 'T' :: 'H' :: rest) := rfl
    obtain ⟨ht2, hdp2⟩ := takeWhile_append_all ds (' ' :: 'E' :: 'T' :: 'H' :: rest) hall
    unfold matchAmountAt
    rw [hassoc, ht, hdp, hdot1, hdot2, List.append_nil]
    simp only [hemp, Bool.false_eq_true, if_false]
    simp only [ht2, hdp2, hsp, hsp2, List.append_nil, matchSpaceETH_spaceETH, if_true]
    rw [← hshape]

theorem mk_data (s : String) : String.mk s.data = s := rfl

theorem digit_char_ne {c : Char} (h : c.isDigit = true) :
    c ≠ 'f' ∧ c ≠ 't' ∧ c ≠ 'p' := by
  refine ⟨?_, ?_, ?_⟩ <;> (intro heq; rw [heq] at h; exact absurd h (by decide))

theorem amount_char_ne {c : Char} (h : c.isDigit = true ∨ c = '.') :
    c ≠ 'f' ∧ c ≠ 't' ∧ c ≠ 'p' := by
  rcases h with h | h
  · exact digit_char_ne h
  · subst h
    refine ⟨by decide, by decide, by decide⟩

theorem hex_char_ne {c : Char} (h : isHexDigit c = true) : c ≠ 't' ∧ c ≠ 'p' := by
  constructor <;> (intro heq; rw [heq] at h; exact absurd h (by decide))

theorem isAddrToken_decomp {s : List Char} (h : isAddrToken s = true) :
    ∃ hx, s = '0' :: 'x' :: hx ∧ hx.length = 40 ∧ ∀ c ∈ hx, isHexDigit c = true := by
  unfold isAddrToken at h
  split at h
  · rename_i hx
    rw [Bool.and_eq_true] at h
    exact ⟨hx, rfl, by simpa using h.1, List.all_eq_true.mp h.2⟩
  · exact absurd h (by simp)

theorem find_amount_template (amt tail : List Char) (ha : isAmountToken amt = true) :
    findMatch matchAmountAt ("send ".data ++ (amt ++ (' ' :: 'E' :: 'T' :: 'H' :: tail)))
      = some amt := by
  rw [findMatch_append_skip]
  · cases amt with
    | nil => exact absurd ha (by decide)
    | cons a t =>
      have hm := @matchAmountAt_token (a :: t) tail ha
      rw [List.cons_append] at hm
      simp [findMatch, hm]
  · intro c hc cs
    apply matchAmountAt_nondigit
    fin_cases hc <;> rfl

theorem findMatch_cons (m : List Char → Option (List Char)) (c : Char) (rest : List Char) :
    findMatch m (c :: rest)
      = match m (c :: rest) with
        | some g => some g
        | none => findMatch m rest := rfl

theorem find_from_template (pre h1 tail : List Char)
    (hpre : ∀ c ∈ pre, c ≠ 'f')
    (hl : h1.length = 40) (hx : ∀ c ∈ h1, isHexDigit c = true) :
    findMatch matchFromAt (pre ++ ("from 0x".data ++ (h1 ++ tail)))
      = some ('0' :: 'x' :: h1) := by
  rw [findMatch_append_skip _ _ _ (fun c hc cs => matchFromAt_head_ne (hpre c hc) cs)]
  have hsplit : "from 0x".data ++ (h1 ++ tail) = 'f' :: ("rom 0x".data ++ (h1 ++ tail)) := rfl
  rw [hsplit, findMatch_cons, ← hsplit, matchFromAt_at h1 tail hl hx]

theorem find_to_template (pre h1 tail : List Char)
    (hpre : ∀ c ∈ pre, c ≠ 't')
    (hl : h1.length = 40) (hx : ∀ c ∈ h1, isHexDigit c = true) :
    findMatch matchToAt (pre ++ ("to 0x".data ++ (h1 ++ tail)))
      = some ('0' :: 'x' :: h1) := by
  rw [findMatch_append_skip _ _ _ (fun c hc cs => matchToAt_head_ne (hpre c hc) cs)]
  have hsplit : "to 0x".data ++ (h1 ++ tail) = 't' :: ("o 0x".data ++ (h1 ++ tail)) := rfl
  rw [hsplit, findMatch_cons, ← hsplit, matchToAt_at h1 tail hl hx]

/-- Claim C2: on every command of the shape
`"send <amount> ETH from <0x40hex> to <0x40hex>"` the parser extracts exactly
that amount/from/to triple (and no private key); a command in which the
amount, the from-token or the to-token regex finds no match yields the
corresponding distinct, field-identifying error, checked in that order; and
the three error strings are pairwise distinct. -/
theorem send_command_parse_spec :
    (∀ (amtS fromS toS : String),
      isAmountToken amtS.data = true → isAddrToken fromS.data = true →
      isAddrToken toS.data = true →
      parseSendIntent ("send " ++ amtS ++ " ETH from " ++ fromS ++ " to " ++ toS)
        = .ok (amtS, fromS, toS, none))
    ∧ (∀ cmd : String, findMatch matchAmountAt cmd.data = none →
        parseSendIntent cmd = .error "Error: Could not parse ETH amount from command")
    ∧ (∀ (cmd : String) (amt : List Char),
        findMatch matchAmountAt cmd.data = some amt →
        findMatch matchFromAt cmd.data = none →
        parseSendIntent cmd = .error "Error: Could not parse from address from command")
    ∧ (∀ (cmd : String) (amt fr : List Char),
        findMatch matchAmountAt cmd.data = some amt →
        findMatch matchFromAt cmd.data = some fr →
        findMatch matchToAt cmd.data = none →
        parseSendIntent cmd = .error "Error: Could not parse to address from command")
    ∧ ("Error: Could not parse ETH amount from command"
          ≠ "Error: Could not parse from address from command"
       ∧ "Error: Could not parse ETH amount from command"
          ≠ "Error: Could not parse to address from command"
       ∧ "Error: Could not parse from address from command"
          ≠ "Error: Could not parse to address from command") := by
  refine ⟨?_, ?_, ?_, ?_, by decide, by decide, by decide⟩
  · intro amtS fromS toS ha hf ht
    obtain ⟨x1, hfe, hfl, hfx⟩ := isAddrToken_decomp hf
    obtain ⟨x2, hte, htl, htx⟩ := isAddrToken_decomp ht
    have hamem := isAmountToken_mem ha
    have hsend : "send ".data = 's' :: 'e' :: 'n' :: 'd' :: ' ' :: [] := rfl
    have hef : " ETH from ".data
        = ' ' :: 'E' :: 'T' :: 'H' :: ' ' :: 'f' :: 'r' :: 'o' :: 'm' :: ' ' :: [] := rfl
    have htoL : " to ".data = ' ' :: 't' :: 'o' :: ' ' :: [] := rfl
    have hfrom0x : "from 0x".data = 'f' :: 'r' :: 'o' :: 'm' :: ' ' :: '0' :: 'x' :: [] := rfl
    have hto0x : "to 0x".data = 't' :: 'o' :: ' ' :: '0' :: 'x' :: [] := rfl
    -- amount
    have e1 : ("send " ++ amtS ++ " ETH from " ++ fromS ++ " to " ++ toS).data
        = "send ".data ++ (amtS.data ++ (' ' :: 'E' :: 'T' :: 'H' ::
            (' ' :: 'f' :: 'r' :: 'o' :: 'm' :: ' ' ::
              (fromS.data ++ (' ' :: 't' :: 'o' :: ' ' :: toS.data))))) := by
      simp only [String.data_append, hef, htoL, List.append_assoc, List.cons_append,
        List.nil_append]
    have hA : findMatch matchAmountAt
        ("send " ++ amtS ++ " ETH from " ++ fromS ++ " to " ++ toS).data = some amtS.data := by
      rw [e1]
      exact find_amount_template _ _ ha
    -- from address
    have e2 : ("send " ++ amtS ++ " ETH from " ++ fromS ++ " to " ++ toS).data
        = ("send ".data ++ (amtS.data ++ (' ' :: 'E' :: 'T' :: 'H' :: ' ' :: [])))
            ++ ("from 0x".data ++ (x1 ++ (' ' :: 't' :: 'o' :: ' ' :: toS.data))) := by
      simp only [String.data_append, hfe, hef, htoL, hfrom0x, List.append_assoc,
        List.cons_append, List.nil_append]
    have hpreF : ∀ c ∈ "send ".data ++ (amtS.data ++ (' ' :: 'E' :: 'T' :: 'H' :: ' ' :: [])),
        c ≠ 'f' := by
      intro c hc
      rcases List.mem_append.mp hc with hc1 | hc2
      · rw [hsend] at hc1
        fin_cases hc1 <;> decide
      · rcases List.mem_append.mp hc2 with hc3 | hc4
        · exact (amount_char_ne (hamem c hc3)).1
        · fin_cases hc4 <;> decide
    have hF : findMatch matchFromAt
        ("send " ++ amtS ++ " ETH from " ++ fromS ++ " to " ++ toS).data
          = some fromS.data := by
      rw [e2, find_from_template _ x1 _ hpreF hfl hfx, hfe]
    -- to address
    have e3 : ("send " ++ amtS ++ " ETH from " ++ fromS ++ " to " ++ toS).data
        = ("send ".data ++ (amtS.data
            ++ ((' ' :: 'E' :: 'T' :: 'H' :: ' ' :: 'f' :: 'r' :: 'o' :: 'm' :: ' ' :: [])
              ++ (('0' :: 'x' :: x1) ++ (' ' :: [])))))
            ++ ("to 0x".data ++ (x2 ++ [])) := by
      simp only [String.data_append, hfe, hte, hef, htoL, hto0x, List.append_assoc,
        List.cons_append, List.nil_append, List.append_nil]
    have hpreT : ∀ c ∈ "send ".data ++ (amtS.data
        ++ ((' ' :: 'E' :: 'T' :: 'H' :: ' ' :: 'f' :: 'r' :: 'o' :: 'm' :: ' ' :: [])
          ++ (('0' :: 'x' :: x1) ++ (' ' :: [])))), c ≠ 't' := by
      intro c hc
      rcases List.mem_append.mp hc with hc1 | hc2
      · rw [hsend] at hc1
        fin_cases hc1 <;> decide
      · rcases List.mem_append.mp hc2 with hc3 | hc4
        · exact (amount_char_ne (hamem c hc3)).2.1
        · rcases List.mem_append.mp hc4 with hc5 | hc6
          · fin_cases hc5 <;> decide
          · rcases List.mem_append.mp hc6 with hc7 | hc8
            · rcases List.mem_cons.mp hc7 with rfl | hc9
              · decide
              · rcases List.mem_cons.mp hc9 with rfl | hc10
                · decide
                · exact (hex_char_ne (hfx c hc10)).1
            · fin_cases hc8 <;> decide
    have hT : findMatch matchToAt
        ("send " ++ amtS ++ " ETH from " ++ fromS ++ " to " ++ toS).data
          = some toS.data := by
      rw [e3, find_to_template _ x2 _ hpreT htl htx, hte]
    -- private key: no 'p' anywhere in the template
    have e4 : ("send " ++ amtS ++ " ETH from " ++ fromS ++ " to " ++ toS).data
        = "send ".data ++ (amtS.data
            ++ ((' ' :: 'E' :: 'T' :: 'H' :: ' ' :: 'f' :: 'r' :: 'o' :: 'm' :: ' ' :: [])
              ++ (('0' :: 'x' :: x1)
                ++ ((' ' :: 't' :: 'o' :: ' ' :: []) ++ ('0' :: 'x' :: x2))))) := by
      simp only [String.data_append, hfe, hte, hef, htoL, List.append_assoc,
        List.cons_append, List.nil_append]
    have hallp : ∀ c ∈ "send ".data ++ (amtS.data
        ++ ((' ' :: 'E' :: 'T' :: 'H' :: ' ' :: 'f' :: 'r' :: 'o' :: 'm' :: ' ' :: [])
          ++ (('0' :: 'x' :: x1)
            ++ ((' ' :: 't' :: 'o' :: ' ' :: []) ++ ('0' :: 'x' :: x2))))), c ≠ 'p' := by
      intro c hc
      rcases List.mem_append.mp hc with hc1 | hc2
      · rw [hsend] at hc1
        fin_cases hc1 <;> decide
      · rcases List.mem_append.mp hc2 with hc3 | hc4
        · exact (amount_char_ne (hamem c hc3)).2.2
        · rcases List.mem_append.mp hc4 with hc5 | hc6
          · fin_cases hc5 <;> decide
          · rcases List.mem_append.mp hc6 with hc7 | hc8
            · rcases List.mem_cons.mp hc7 with rfl | hc9
              · decide
              · rcases List.mem_cons.mp hc9 with rfl | hc10
                · decide
                · exact (hex_char_ne (hfx c hc10)).2
            · rcases List.mem_append.mp hc8 with hc9 | hc10
              · fin_cases hc9 <;> decide
              · rcases List.mem_cons.mp hc10 with rfl | hc11
                · decide
                · rcases List.mem_cons.mp hc11 with rfl | hc12
                  · decide
                  · exact (hex_char_ne (htx c hc12)).2
    have hK : findMatch matchKeyAt
        ("send " ++ amtS ++ " ETH from " ++ fromS ++ " to " ++ toS).data = none := by
      rw [e4]
      exact findMatch_none _ _ (fun c hc cs => matchKeyAt_head_ne (hallp c hc) cs)
    unfold parseSendIntent
    rw [hA, hF, hT, hK]
    simp [mk_data]
  · intro cmd hno
    unfold parseSendIntent
    rw [hno]
  · intro cmd amt h1 h2
    unfold parseSendIntent
    rw [h1]
    dsimp only
    rw [h2]
  · intro cmd amt fr h1 h2 h3
    unfold parseSendIntent
    rw [h1]
    dsimp only
    rw [h2]
    dsimp only
    rw [h3]

/-- Claim C2 witness: extraction on a concrete well-formed command, and the
amount error on a command with no parsable amount. -/
theorem send_command_parse_spec_witness :
    parseSendIntent ("send " ++ "0.5" ++ " ETH from " ++ addrA ++ " to " ++ addrB)
      = .ok ("0.5", addrA, addrB, none)
    ∧ parseSendIntent "send ETH from nowhere"
      = .error "Error: Could not parse ETH amount from command" :=
  ⟨send_command_parse_spec.1 "0.5" addrA addrB (by decide) (by decide) (by decide),
   send_command_parse_spec.2.1 "send ETH from nowhere" (by decide)⟩

end OnchainAgent
